import Mathlib

/-!
Verification development for the dice-roll simulation pipeline
(`src/main.ts` and the two unnamed variants of the same program).

The numeric type of the source (IEEE doubles) is modelled by an arbitrary
linear ordered field `α`, instantiated at `ℝ` for statements that need the
actual values of `π`, `cos`, `sin` and `sqrt`, and at `ℚ` for concrete
witness computations.  The transcendental functions used by the source
(`Math.sqrt` via `Vector3.normalize`/`length`, `Math.cos`/`Math.sin` via
`Quaternion.setFromAxisAngle`, and the constant `Math.PI`) are passed as an
explicit `RealOps` bundle so that every definition stays executable; at `ℝ`
the bundle is `⟨Real.sqrt, Real.cos, Real.sin, Real.pi⟩`.
-/

namespace DiceRoll

/-- 3-component vector, the model of `THREE.Vector3` / `CANNON.Vec3`. -/
@[ext]
structure V3 (α : Type) where
  x : α
  y : α
  z : α
  deriving Repr, DecidableEq

/-- Quaternion components, the model of `THREE.Quaternion` / `CANNON.Quaternion`. -/
@[ext]
structure Q4 (α : Type) where
  w : α
  x : α
  y : α
  z : α
  deriving Repr, DecidableEq

variable {α : Type} [LinearOrderedField α]

/-- Hamilton product, the model of `THREE.Quaternion.multiplyQuaternions`. -/
def qmul (p q : Q4 α) : Q4 α :=
  ⟨p.w * q.w - p.x * q.x - p.y * q.y - p.z * q.z,
   p.w * q.x + p.x * q.w + p.y * q.z - p.z * q.y,
   p.w * q.y - p.x * q.z + p.y * q.w + p.z * q.x,
   p.w * q.z + p.x * q.y - p.y * q.x + p.z * q.w⟩

/-- Quaternion conjugate. -/
def qconj (q : Q4 α) : Q4 α := ⟨q.w, -q.x, -q.y, -q.z⟩

/-- The identity quaternion (`new THREE.Quaternion()`). -/
def qone : Q4 α := ⟨1, 0, 0, 0⟩

/-- A vector as a pure quaternion. -/
def qofV3 (v : V3 α) : Q4 α := ⟨0, v.x, v.y, v.z⟩

/-- Action of a (unit) quaternion on a vector: the vector part of `q v q*`.
This is how an orientation quaternion set on a mesh or body transforms
body-local directions into world directions. -/
def qrot (q : Q4 α) (v : V3 α) : V3 α :=
  let r := qmul (qmul q (qofV3 v)) (qconj q)
  ⟨r.x, r.y, r.z⟩

/-- The bundle of real-analytic operations the source uses on doubles. -/
structure RealOps (α : Type) where
  sqrt : α → α
  cos : α → α
  sin : α → α
  pi : α

/-- `THREE.Vector3.length`. -/
def v3len (ops : RealOps α) (v : V3 α) : α :=
  ops.sqrt (v.x * v.x + v.y * v.y + v.z * v.z)

/-- `THREE.Vector3.normalize` (divide by the length). -/
def v3normalize (ops : RealOps α) (v : V3 α) : V3 α :=
  let n := v3len ops v
  ⟨v.x / n, v.y / n, v.z / n⟩

/-- `THREE.Quaternion.setFromAxisAngle` (the axis is assumed normalized by
the caller, as in the source where `.normalize()` is always applied first). -/
def quatOfAxisAngle (ops : RealOps α) (u : V3 α) (angle : α) : Q4 α :=
  ⟨ops.cos (angle / 2), ops.sin (angle / 2) * u.x,
   ops.sin (angle / 2) * u.y, ops.sin (angle / 2) * u.z⟩

/-- The real-number instantiation of the operation bundle. -/
noncomputable def realOps : RealOps ℝ := ⟨Real.sqrt, Real.cos, Real.sin, Real.pi⟩

/-! ## Outcome classifier (`getFaceUp`)

Transcribed from `getFaceUp` (identical in `src/main.ts:420`,
`part_000:721` and `part_001:628`).  The input is the Euler triple produced
by `CANNON.Quaternion.toEuler`; only the `x` and `z` components are read. -/

/-- `getFaceUp` from the source.  `pi` is `Math.PI`; the source's helper
lambdas `isZero`, `isHalfPi`, `isMinusHalfPi`, `isPiOrMinusPi` (with
`eps = 0.1`) are inlined as the corresponding conditions. -/
def getFaceUp (pi : α) (euler : V3 α) : ℕ :=
  let eps : α := 1 / 10
  if |euler.z| < eps then
    if |euler.x| < eps then 1
    else if |euler.x - pi / 2| < eps then 4
    else if |pi / 2 + euler.x| < eps then 3
    else if |pi - euler.x| < eps ∨ |pi + euler.x| < eps then 6
    else 0
  else if |euler.z - pi / 2| < eps then 2
  else if |pi / 2 + euler.z| < eps then 5
  else 0

/-- The classifier as the specification words it (claim C1): tolerance
ε = 0.1 rad, decision on the z-angle first, then the x-angle; "within ε of
±π" for face 6; 0 = indeterminate. -/
def specFaceUp (pi : α) (xAngle zAngle : α) : ℕ :=
  let eps : α := 1 / 10
  if |zAngle - 0| < eps then
    if |xAngle - 0| < eps then 1
    else if |xAngle - pi / 2| < eps then 4
    else if |xAngle - -(pi / 2)| < eps then 3
    else if |xAngle - pi| < eps ∨ |xAngle + pi| < eps then 6
    else 0
  else if |zAngle - pi / 2| < eps then 2
  else if |zAngle - -(pi / 2)| < eps then 5
  else 0

/-! ## Outcome corrector (`makeDesired`)

Transcribed from `makeDesired` (identical in `src/main.ts:457`,
`part_000:758` and `part_001:665`).  The source keeps two mutable locals,
`rotationAxis` (default `(1,0,0)`) and `angle` (default `π/2`), overridden
branch by branch; the transcription returns the final pair of each branch. -/

/-- The `(rotationAxis, angle)` pair `makeDesired` computes for a given
`(actual, desired)` pair (before normalization).  Branches that assign
nothing keep the defaults `((1,0,0), π/2)`. -/
def desiredAxisAngle (pi : α) (actual desired : ℕ) : V3 α × α :=
  if actual = 1 then
    if desired = 2 then (⟨0, 0, 1⟩, pi / 2)
    else if desired = 3 then (⟨-1, 0, 0⟩, pi / 2)
    else if desired = 4 then (⟨1, 0, 0⟩, pi / 2)
    else if desired = 5 then (⟨0, 0, -1⟩, pi / 2)
    else if desired = 6 then (⟨1, 0, 0⟩, pi)
    else (⟨1, 0, 0⟩, pi / 2)
  else if actual = 2 then
    if desired = 1 then (⟨0, 0, -1⟩, pi / 2)
    else if desired = 3 then (⟨1, 0, 1⟩, pi)
    else if desired = 4 then (⟨1, 0, -1⟩, pi)
    else if desired = 5 then (⟨0, 0, 1⟩, pi)
    else if desired = 6 then (⟨0, 0, 1⟩, pi / 2)
    else (⟨1, 0, 0⟩, pi / 2)
  else if actual = 3 then
    if desired = 1 then (⟨1, 0, 0⟩, pi / 2)
    else if desired = 2 then (⟨1, 0, 1⟩, pi)
    else if desired = 4 then (⟨1, 0, 0⟩, pi)
    else if desired = 5 then (⟨1, 0, -1⟩, pi)
    else if desired = 6 then (⟨-1, 0, 0⟩, pi / 2)
    else (⟨1, 0, 0⟩, pi / 2)
  else if actual = 4 then
    if desired = 1 then (⟨-1, 0, 0⟩, pi / 2)
    else if desired = 2 then (⟨1, 0, -1⟩, pi)
    else if desired = 3 then (⟨1, 0, 0⟩, pi)
    else if desired = 5 then (⟨1, 0, 1⟩, pi)
    else if desired = 6 then (⟨1, 0, 0⟩, pi / 2)
    else (⟨1, 0, 0⟩, pi / 2)
  else if actual = 5 then
    if desired = 1 then (⟨0, 0, 1⟩, pi / 2)
    else if desired = 2 then (⟨0, 0, 1⟩, pi)
    else if desired = 3 then (⟨1, 0, -1⟩, pi)
    else if desired = 4 then (⟨1, 0, 1⟩, pi)
    else if desired = 6 then (⟨0, 0, -1⟩, pi / 2)
    else (⟨1, 0, 0⟩, pi / 2)
  else if actual = 6 then
    if desired = 1 then (⟨0, 0, 1⟩, pi)
    else if desired = 2 then (⟨0, 0, -1⟩, pi / 2)
    else if desired = 3 then (⟨1, 0, 0⟩, pi / 2)
    else if desired = 4 then (⟨-1, 0, 0⟩, pi / 2)
    else if desired = 5 then (⟨0, 0, 1⟩, pi / 2)
    else (⟨1, 0, 0⟩, pi / 2)
  else (⟨1, 0, 0⟩, pi / 2)

/-- The corrective rotation quaternion:
`rotationQuaternion.setFromAxisAngle(rotationAxis.normalize(), angle)`. -/
def desiredQuat (ops : RealOps α) (actual desired : ℕ) : Q4 α :=
  let p := desiredAxisAngle ops.pi actual desired
  quatOfAxisAngle ops (v3normalize ops p.1) p.2

/-- `makeDesired` acting on a mesh's orientation quaternion: early return
when `actual === desired`, otherwise `mesh.quaternion.multiply(q)` which is
right-multiplication (the corrective rotation acts in the body frame). -/
def makeDesired (ops : RealOps α) (q : Q4 α) (actual desired : ℕ) : Q4 α :=
  if actual = desired then q
  else qmul q (desiredQuat ops actual desired)

/-- World "up". -/
def yhat : V3 α := ⟨0, 1, 0⟩

/-- Body-local outward normal of each die face, under the classifier's
convention (the face `f` is up in orientation `q` exactly when `q` maps
`faceNormal f` to world up).  Derived from the canonical rotations that
`getFaceUp` classifies as each face; `canonicalQuat_up` below proves the
consistency. -/
def faceNormal : ℕ → V3 α
  | 1 => ⟨0, 1, 0⟩
  | 2 => ⟨1, 0, 0⟩
  | 3 => ⟨0, 0, 1⟩
  | 4 => ⟨0, 0, -1⟩
  | 5 => ⟨-1, 0, 0⟩
  | 6 => ⟨0, -1, 0⟩
  | _ => ⟨0, 0, 0⟩

/-- The canonical orientation for each face: the single-axis rotation whose
Euler triple `getFaceUp` classifies as that face (faces 1/4/3/6 rotate
about x by 0, π/2, −π/2, π; faces 2/5 rotate about z by ±π/2). -/
def canonicalQuat (ops : RealOps α) : ℕ → Q4 α
  | 1 => quatOfAxisAngle ops ⟨1, 0, 0⟩ 0
  | 2 => quatOfAxisAngle ops ⟨0, 0, 1⟩ (ops.pi / 2)
  | 3 => quatOfAxisAngle ops ⟨1, 0, 0⟩ (-(ops.pi / 2))
  | 4 => quatOfAxisAngle ops ⟨1, 0, 0⟩ (ops.pi / 2)
  | 5 => quatOfAxisAngle ops ⟨0, 0, 1⟩ (-(ops.pi / 2))
  | 6 => quatOfAxisAngle ops ⟨1, 0, 0⟩ ops.pi
  | _ => qone

/-! ## Playback (`renderSimulation`)

Transcribed from `renderSimulation`'s `renderHelper` in `part_000:620-700`
(the fullest variant: dual mode, token cancellation and frame export; the
interpolated branch is identical in `src/main.ts:382` and `part_001:571`).
The frame-export buffer is modelled by its length (the stored base64
strings and their durations carry no information the claims mention), the
session tokens (`Symbol()`s) by naturals, and `requestAnimationFrame` /
`renderer.render` calls by the `rescheduled` / `rendered` flags of the
callback's effect record. -/

/-- A recorded pose: one die's entry of one trajectory sample. -/
structure Pose (α : Type) where
  pos : V3 α
  quat : Q4 α
  deriving Repr, DecidableEq

/-- The `params` fields read by `renderHelper`. -/
structure RenderCfg where
  renderFixedFrames : Bool
  magic : Bool
  storeFrames : Bool
  desiredRolls : List ℕ
  deriving Repr, DecidableEq

/-- Per-session immutable data: the resolved roll, the trajectory record,
this callback chain's captured token `id`, the current global `renderId`,
and the session start time (ms). -/
structure RenderSession (α : Type) where
  rollResult : List ℕ
  simulationRecord : List (List (Pose α))
  id : ℕ
  renderId : ℕ
  start : α
  deriving Repr, DecidableEq

/-- Mutable playback state before a callback runs. -/
structure RenderState (α : Type) where
  meshes : List (Pose α)
  fixedFrameIdx : ℕ
  storedFrames : ℕ
  lastFrameTime : α
  deriving Repr, DecidableEq

/-- Everything one `renderHelper` callback does. -/
structure RenderOut (α : Type) where
  meshes : List (Pose α)
  fixedFrameIdx : ℕ
  storedFrames : ℕ
  lastFrameTime : α
  rendered : Bool
  rescheduled : Bool
  deriving Repr, DecidableEq

/-- `THREE.Vector3.lerpVectors`. -/
def lerpV3 (a b : V3 α) (t : α) : V3 α :=
  ⟨a.x + (b.x - a.x) * t, a.y + (b.y - a.y) * t, a.z + (b.z - a.z) * t⟩

/-- `clamp` from `three/src/math/MathUtils`: `Math.max(min, Math.min(max, value))`. -/
def clampI (value lo hi : ℤ) : ℤ := max lo (min hi value)

/-- `simulationRecord[k][idx]` (out-of-range access yields a default, which
in-range callers never hit). -/
def sampleAt (record : List (List (Pose α))) (k idx : ℕ) : Pose α :=
  (record.getD k []).getD idx ⟨⟨0, 0, 0⟩, qone⟩

/-- The `params.magic` block: every mesh gets `makeDesired` composed onto
its displayed orientation. -/
def applyMagic (ops : RealOps α) (cfg : RenderCfg) (roll : List ℕ)
    (meshes : List (Pose α)) : List (Pose α) :=
  if cfg.magic then
    (List.range meshes.length).map fun i =>
      let m := meshes.getD i ⟨⟨0, 0, 0⟩, qone⟩
      { m with quat := makeDesired ops m.quat (roll.getD i 0) (cfg.desiredRolls.getD i 0) }
  else meshes

/-- One `renderHelper` callback, faithful to `part_000:626-698` including
the fixed-frame branch's early `return` (which skips the magic block,
`renderer.render` and the frame export) and the reschedule-before-work
token check.  `meshArray.forEach((mesh, idx) => ...)` — which overwrites
every mesh pose from the record, ignoring its previous pose — is modelled
as a map over the index range of the mesh list. -/
def renderFrame [FloorRing α] (ops : RealOps α) (slerpFn : Q4 α → Q4 α → α → Q4 α)
    (cfg : RenderCfg) (sess : RenderSession α) (now : α) (st : RenderState α) :
    RenderOut α :=
  let record := sess.simulationRecord
  if cfg.renderFixedFrames then
    let meshes1 := (List.range st.meshes.length).map fun idx =>
      sampleAt record st.fixedFrameIdx idx
    let resched := sess.id == sess.renderId
    if record.length - 1 ≤ st.fixedFrameIdx then
      ⟨meshes1, st.fixedFrameIdx, st.storedFrames, st.lastFrameTime, false, resched⟩
    else
      let meshes2 := applyMagic ops cfg sess.rollResult meshes1
      let stored := if cfg.storeFrames then st.storedFrames + 1 else st.storedFrames
      ⟨meshes2, st.fixedFrameIdx + 1, stored, now, true, resched⟩
  else
    let step := (now - sess.start) / 1000 * 60
    let i : ℕ := (clampI ⌊step⌋ 0 ((record.length : ℤ) - 1)).toNat
    let j : ℤ := ⌈step⌉
    if 0 ≤ j ∧ j < (record.length : ℤ) then
      let meshes1 := (List.range st.meshes.length).map fun idx =>
        ⟨lerpV3 (sampleAt record i idx).pos (sampleAt record j.toNat idx).pos
           (step - (i : α)),
         slerpFn (sampleAt record i idx).quat (sampleAt record j.toNat idx).quat
           (step - (i : α))⟩
      let meshes2 := applyMagic ops cfg sess.rollResult meshes1
      let stored := if cfg.storeFrames then st.storedFrames + 1 else st.storedFrames
      ⟨meshes2, st.fixedFrameIdx, stored, now, true, sess.id == sess.renderId⟩
    else
      let meshes1 := (List.range st.meshes.length).map fun idx => sampleAt record i idx
      let meshes2 := applyMagic ops cfg sess.rollResult meshes1
      let stored := if cfg.storeFrames then st.storedFrames + 1 else st.storedFrames
      ⟨meshes2, st.fixedFrameIdx, stored, now, true, false⟩

/-- A callback as a transformer of the pair (session data, display state):
the session (trajectory record and classified roll) is read, never written. -/
def renderStep [FloorRing α] (ops : RealOps α) (slerpFn : Q4 α → Q4 α → α → Q4 α)
    (cfg : RenderCfg) (w : RenderSession α × RenderState α) (now : α) :
    RenderSession α × RenderState α :=
  let out := renderFrame ops slerpFn cfg w.1 now w.2
  (w.1, ⟨out.meshes, out.fixedFrameIdx, out.storedFrames, out.lastFrameTime⟩)

/-- Claim C7's wording of an interpolated-mode frame: elapsed seconds `t`,
fractional step `s = t × 60`, `i = clamp(⌊s⌋, 0, last)`, `j = ⌈s⌉`; if
sample `j` exists, lerp positions and slerp orientations between samples
`i` and `j` by `s - i` and reschedule only if the token is current; if `j`
exceeds the record, snap to sample `i` and do not reschedule.  Returns the
displayed poses (for `count` dice) and the reschedule decision. -/
def specInterpFrame [FloorRing α] (slerpFn : Q4 α → Q4 α → α → Q4 α)
    (record : List (List (Pose α))) (t : α) (tokenCurrent : Bool) (count : ℕ) :
    List (Pose α) × Bool :=
  let s := t * 60
  let i : ℕ := (clampI ⌊s⌋ 0 ((record.length : ℤ) - 1)).toNat
  let j : ℤ := ⌈s⌉
  if 0 ≤ j ∧ j < (record.length : ℤ) then
    ((List.range count).map fun idx =>
      ⟨lerpV3 (sampleAt record i idx).pos (sampleAt record j.toNat idx).pos (s - (i : α)),
       slerpFn (sampleAt record i idx).quat (sampleAt record j.toNat idx).quat (s - (i : α))⟩,
     tokenCurrent)
  else
    ((List.range count).map fun idx => sampleAt record i idx, false)

/-! ## Roll resolution (`simulateThrow`)

Two variants are modelled:

* `simulateThrowMain` — `src/main.ts:320-380`: no stuck detection, roll
  entries initialised to `0`, single invocation;
* `simulateThrowP0` — `part_000:512-618` (same in `part_001:461-567` up to
  constants): stuck detection every `stuckDetectionSteps` iterations with a
  bounded retry that re-invokes the resolver on a fresh environment, roll
  entries initialised to `1`.

The physics engine is the black box the spec declares it to be: a `SimEnv`
supplies the per-step body states (`world k d` = state of die `d` after `k`
completed steps), the sleep events fired during step `k` together with the
Euler triple `toEuler` produces at that moment, and the wall-clock elapsed
milliseconds observed at the timeout check after `k` steps.  The loop is
run on explicit fuel (the loop itself has no iteration bound in the source;
the stability theorem for claim C3 shows the result is fuel-independent
once the wall clock passes the deadline).  Constants that differ between
variants (window, retry cap — spec §9 calls them tunable configuration)
are `SimCfg` fields, instantiated to part_000's values in `p0Cfg`. -/

/-- Observable state of one body after a physics step. -/
structure BodyState (α : Type) where
  pos : V3 α
  quat : Q4 α
  vel : V3 α

/-- The environment one `simulateThrow` invocation runs against. -/
structure SimEnv (α : Type) where
  world : ℕ → ℕ → BodyState α
  sleepAt : ℕ → ℕ → Option (V3 α)
  elapsed : ℕ → α

/-- The loop's numeric environment and tunable constants
(`stuckDetectionThreshold = 0.001`, `stuckDetectionSteps = 1000`, retry cap
10 in part_000 / 3 in part_001, wall-clock deadline 1000 ms). -/
structure SimCfg (α : Type) where
  ops : RealOps α
  thr : α
  window : ℕ
  cap : ℕ
  deadline : α

/-- part_000's constants (over `ℝ`). -/
noncomputable def p0Cfg : SimCfg ℝ := ⟨realOps, 1 / 1000, 1000, 10, 1000⟩

/-- part_001's constants differ only in the retry cap. -/
noncomputable def p1Cfg : SimCfg ℝ := ⟨realOps, 1 / 1000, 1000, 3, 1000⟩

/-- The zero vector. -/
def v3zero : V3 α := ⟨0, 0, 0⟩

/-- `CANNON.Vec3.distanceTo`. -/
def v3dist (sqrtF : α → α) (a b : V3 α) : α :=
  sqrtF ((a.x - b.x) * (a.x - b.x) + (a.y - b.y) * (a.y - b.y) + (a.z - b.z) * (a.z - b.z))

/-- Loop state of one resolution: completed steps `i`, per-die face values
and settled flags (`rollResult` / the non-`null` entries of
`eventHandlers`), the trajectory record, and the last stuck-detection
window's positions. -/
structure SimState (α : Type) where
  i : ℕ
  roll : List ℕ
  settled : List Bool
  record : List (List (Pose α))
  lastPos : List (V3 α)
  deriving Repr

/-- The stuck scan of `part_000:583-593`: iterate over **all** dice and
declare the window stuck unless some die's position delta or linear speed
exceeds the threshold. -/
def allStuck (cfg : SimCfg α) (lastPs curPs vels : List (V3 α)) : Bool :=
  (List.range curPs.length).all fun d =>
    !(decide (cfg.thr < v3dist cfg.ops.sqrt (curPs.getD d v3zero) (lastPs.getD d v3zero)) ||
      decide (cfg.thr < v3len cfg.ops (vels.getD d v3zero)))

/-- One die's sleep-event handler (`part_000:548-565`): nothing without an
event or once the handler is detached; on an event, classify the Euler
orientation — a valid face settles the die and detaches the handler, an
indeterminate rest re-arms sleeping and leaves the die unsettled. -/
def stepSleep (pi : α) (ev : Option (V3 α)) (cur : ℕ × Bool) : ℕ × Bool :=
  match ev with
  | none => cur
  | some e =>
    if cur.2 then cur
    else
      let f := getFaceUp pi e
      if f ≠ 0 then (f, true) else cur

/-- Apply the sleep events fired during one step to every die. -/
def processSleeps (pi : α) (ev : ℕ → Option (V3 α)) (roll : List ℕ)
    (settled : List Bool) : List ℕ × List Bool :=
  let pairs := (List.range roll.length).map fun d =>
    stepSleep pi (ev d) (roll.getD d 0, settled.getD d false)
  (pairs.map Prod.fst, pairs.map Prod.snd)

/-- The trajectory sample pushed before each step:
`simulationDiceArray.map(d => [d.position.clone(), d.quaternion.clone()])`. -/
def posesAt (env : SimEnv α) (n k : ℕ) : List (Pose α) :=
  (List.range n).map fun d => ⟨(env.world k d).pos, (env.world k d).quat⟩

/-- The stuck window's position samples. -/
def positionsAt (env : SimEnv α) (n k : ℕ) : List (V3 α) :=
  (List.range n).map fun d => (env.world k d).pos

/-- The stuck window's velocity samples. -/
def velocitiesAt (env : SimEnv α) (n k : ℕ) : List (V3 α) :=
  (List.range n).map fun d => (env.world k d).vel

/-- Result of one iteration of the part_000 loop. -/
inductive LoopOut (α : Type) where
  | next (s : SimState α)
  | halt (s : SimState α)
  | retryNow

/-- One iteration of the part_000 `while (numSlept < params.numberOfDice)`
loop: guard, record push, step (its sleep events), the stuck window (retry
before the timeout check, `lastPositions` updated when not retrying), then
the wall-clock deadline test. -/
def simStep (cfg : SimCfg α) (env : SimEnv α) (N rc : ℕ) (s : SimState α) :
    LoopOut α :=
  if N ≤ s.settled.count true then .halt s
  else
    let rec1 := s.record ++ [posesAt env N s.i]
    let i1 := s.i + 1
    let rs := processSleeps cfg.ops.pi (fun d => env.sleepAt i1 d) s.roll s.settled
    if i1 % cfg.window = 0 then
      let cur := positionsAt env N i1
      let vels := velocitiesAt env N i1
      if 0 < s.lastPos.length then
        if allStuck cfg s.lastPos cur vels = true ∧ rc < cfg.cap then .retryNow
        else
          let s1 : SimState α := ⟨i1, rs.1, rs.2, rec1, cur⟩
          if cfg.deadline < env.elapsed i1 then .halt s1 else .next s1
      else
        let s1 : SimState α := ⟨i1, rs.1, rs.2, rec1, cur⟩
        if cfg.deadline < env.elapsed i1 then .halt s1 else .next s1
    else
      let s1 : SimState α := ⟨i1, rs.1, rs.2, rec1, s.lastPos⟩
      if cfg.deadline < env.elapsed i1 then .halt s1 else .next s1

/-- Result of running the loop: a final state, or a stuck-retry request
(which abandons the in-progress state, including its trajectory). -/
inductive RunOut (α : Type) where
  | finished (s : SimState α)
  | retrySignal

/-- The part_000 loop on explicit fuel (exhausted fuel acts like the
deadline break; `C3`'s stability theorem shows sufficient fuel makes the
cutoff unreachable). -/
def runLoopFuel (cfg : SimCfg α) (env : SimEnv α) (N rc : ℕ) :
    ℕ → SimState α → RunOut α
  | 0, s => .finished s
  | fuel + 1, s =>
    match simStep cfg env N rc s with
    | .halt s1 => .finished s1
    | .retryNow => .retrySignal
    | .next s1 => runLoopFuel cfg env N rc fuel s1

/-- The final record push after the loop exits. -/
def finishUp (env : SimEnv α) (N : ℕ) (s : SimState α) : SimState α :=
  { s with record := s.record ++ [posesAt env N s.i] }

/-- The initial loop state; part_000 initialises `rollResult` to all `1`
(`fallbackFace = 1`), `src/main.ts` to all `0`. -/
def initSimState (fallbackFace N : ℕ) : SimState α :=
  ⟨0, List.replicate N fallbackFace, List.replicate N false, [], []⟩

/-- The retry structure of part_000's `simulateThrow`: on a stuck retry the
in-progress trajectory is discarded and the resolver re-invoked with
`retryCount + 1` against a fresh environment (`envs (rc+1)` — the new
unseeded random seed re-randomises the scenario).  `rfuel` bounds the
recursion; `retryNow` requires `rc < cfg.cap`, so `cap + 1` invocations
always suffice and the `rfuel = 0` cutoff (which reports an immediately
finished invocation) is unreachable from `rfuel = cap + 1`. -/
def resolveFuel (cfg : SimCfg α) (envs : ℕ → SimEnv α) (N fuel : ℕ) :
    ℕ → ℕ → SimState α
  | 0, rc => finishUp (envs rc) N (initSimState 1 N)
  | rfuel + 1, rc =>
    match runLoopFuel cfg (envs rc) N rc fuel (initSimState 1 N) with
    | .finished s => finishUp (envs rc) N s
    | .retrySignal => resolveFuel cfg envs N fuel rfuel (rc + 1)

/-- part_000's `simulateThrow`: run with retries, return the face values
and the trajectory record. -/
def simulateThrowP0 (cfg : SimCfg α) (envs : ℕ → SimEnv α) (N fuel : ℕ) :
    List ℕ × List (List (Pose α)) :=
  let s := resolveFuel cfg envs N fuel (cfg.cap + 1) 0
  (s.roll, s.record)

/-- Result of one iteration of the `src/main.ts` loop. -/
inductive MainStep (α : Type) where
  | next (s : SimState α)
  | halt (s : SimState α)

/-- One iteration of `src/main.ts:367-375`: guard, record push, step with
its sleep events, deadline test — no stuck detection. -/
def simStepMain (pi : α) (env : SimEnv α) (N : ℕ) (s : SimState α) :
    MainStep α :=
  if N ≤ s.settled.count true then .halt s
  else
    let rec1 := s.record ++ [posesAt env N s.i]
    let i1 := s.i + 1
    let rs := processSleeps pi (fun d => env.sleepAt i1 d) s.roll s.settled
    let s1 : SimState α := ⟨i1, rs.1, rs.2, rec1, s.lastPos⟩
    if (1000 : α) < env.elapsed i1 then .halt s1 else .next s1

/-- The `src/main.ts` loop on fuel. -/
def runMainFuel (pi : α) (env : SimEnv α) (N : ℕ) : ℕ → SimState α → SimState α
  | 0, s => s
  | fuel + 1, s =>
    match simStepMain pi env N s with
    | .halt s1 => s1
    | .next s1 => runMainFuel pi env N fuel s1

/-- `src/main.ts`'s `simulateThrow` (roll entries start at `0` and stay `0`
for dice that never settle before the deadline). -/
def simulateThrowMain (pi : α) (env : SimEnv α) (N fuel : ℕ) :
    List ℕ × List (List (Pose α)) :=
  let s := finishUp env N (runMainFuel pi env N fuel (initSimState 0 N))
  (s.roll, s.record)

/-- Componentwise distance of two orientation quaternions, the rotation
metric used by the spec-side stuck predicate (a die that has not rotated
between two windows has nearby orientation components; a large value means
it did rotate). -/
def q4dist (sqrtF : α → α) (p q : Q4 α) : α :=
  sqrtF ((p.w - q.w) * (p.w - q.w) + (p.x - q.x) * (p.x - q.x) +
    (p.y - q.y) * (p.y - q.y) + (p.z - q.z) * (p.z - q.z))

/-- Modelled from claim C5's words (the comparison predicate of the
refutation, not source code): the resolution is judged stuck iff this is
not the first window and every **unsettled** die has **moved and rotated**
by less than the negligible threshold since the previous window. -/
def specStuck (cfg : SimCfg α) (firstWindow : Bool) (settled : List Bool)
    (lastPs curPs : List (V3 α)) (lastQs curQs : List (Q4 α)) : Prop :=
  firstWindow = false ∧
  ∀ d, d < curPs.length → settled.getD d false = false →
    v3dist cfg.ops.sqrt (curPs.getD d v3zero) (lastPs.getD d v3zero) < cfg.thr ∧
    q4dist cfg.ops.sqrt (curQs.getD d qone) (lastQs.getD d qone) < cfg.thr

/-! ## Scenario generator (`generateNonOverlappingPositions`)

Transcribed from the part_001 variant (`part_001:417-459`): all dice share
the plane `z = 0`, `minDistance = 1.8`, separation measured on the x axis
only, `maxAttempts = 100`, `startHeight = 3`, usable width
`min(BOX_WIDTH - 2, 8)` with `BOX_WIDTH = 10`.  The seeded rng is a draw
stream `rng : ℕ → α` consumed two draws per attempt (x, then y), exactly
as `seedrandom`'s sequential calls are. -/

/-- The do-while rejection loop for one die: up to `fuel` attempts, each
drawing an x and a y; a candidate is valid when it is at least `1.8` away
(in x) from every already-placed die.  Returns the last candidate, the next
rng index, and whether it was valid. -/
def attemptLoopP1 (rng : ℕ → α) (placed : List (V3 α)) :
    ℕ → ℕ → V3 α × ℕ × Bool
  | 0, k => (v3zero, k, false)
  | fuel + 1, k =>
    let x := (rng k - 1 / 2) * 2 * (min ((10 : α) - 2) 8 / 2)
    let y := 3 + rng (k + 1) * 1
    let p : V3 α := ⟨x, y, 0⟩
    let valid := placed.all fun q => decide ((9 : α) / 5 ≤ |p.x - q.x|)
    if valid then (p, k + 2, true)
    else if fuel = 0 then (p, k + 2, false)
    else attemptLoopP1 rng placed fuel (k + 2)

/-- The grid-fallback position for die `i` of `numDice`
(`(i - (numDice - 1) / 2) * minDistance` on x, start height on y). -/
def fallbackP1 (numDice i : ℕ) : V3 α :=
  ⟨((i : α) - ((numDice : α) - 1) / 2) * (9 / 5), 3, 0⟩

/-- The placement loop over the dice (`rem` dice left to place). -/
def genGoP1 (rng : ℕ → α) (numDice : ℕ) : ℕ → ℕ → List (V3 α) → List (V3 α)
  | 0, _, placed => placed
  | rem + 1, k, placed =>
    let i := numDice - (rem + 1)
    let a := attemptLoopP1 rng placed 100 k
    let p := if a.2.2 then a.1 else fallbackP1 numDice i
    genGoP1 rng numDice rem a.2.1 (placed ++ [p])

/-- `generateNonOverlappingPositions` of part_001. -/
def generateNonOverlappingPositionsP1 (rng : ℕ → α) (numDice : ℕ) :
    List (V3 α) :=
  genGoP1 rng numDice numDice 0 []

/-- Stand-in operation bundle over `ℚ` for concrete witness computations
(the witnesses below never evaluate a branch whose value depends on these
functions being the real `sqrt`/`cos`/`sin`/`π`). -/
def qOps : RealOps ℚ := ⟨fun x => x, fun x => x, fun x => x, 3⟩

/-- A trivial concrete pose for witnesses. -/
def pose0 : Pose ℚ := ⟨⟨0, 0, 0⟩, qone⟩

/-- A resolution environment whose clock is already past the deadline and
whose dice never sleep. -/
def timeoutEnv : SimEnv ℚ :=
  ⟨fun _ _ => ⟨v3zero, qone, v3zero⟩, fun _ _ => none, fun _ => 2000⟩

/-- An environment where the single die sleeps face-1-up during step 2 and
the clock never reaches the deadline. -/
def settleEnv : SimEnv ℚ :=
  ⟨fun _ _ => ⟨v3zero, qone, v3zero⟩,
   fun k _ => if k = 2 then some v3zero else none, fun _ => 0⟩

/-- `settleEnv` run on a slow machine: same integrator and sleep events,
but the wall clock is past the deadline from the first check on. -/
def settleEnvSlow : SimEnv ℚ :=
  ⟨fun _ _ => ⟨v3zero, qone, v3zero⟩,
   fun k _ => if k = 2 then some v3zero else none, fun _ => 2000⟩

/-- An environment whose die never moves and never sleeps (a stuck run). -/
def stuckEnv : SimEnv ℚ :=
  ⟨fun _ _ => ⟨v3zero, qone, v3zero⟩, fun _ _ => none, fun _ => 0⟩

/-- An environment whose wall clock advances 2000 ms per step (past the
deadline from the first check on), with a monotone elapsed function. -/
def rampEnv : SimEnv ℚ :=
  ⟨fun _ _ => ⟨v3zero, qone, v3zero⟩, fun _ _ => none, fun k => 2000 * (k : ℚ)⟩

/-- An environment whose die spins in place: position and velocity are
constant (and zero) but the orientation flips every step; it never sleeps
and its clock never reaches the deadline. -/
def rotEnv : SimEnv ℚ :=
  ⟨fun k _ => ⟨v3zero, if k % 2 = 0 then qone else ⟨0, 1, 0, 0⟩, v3zero⟩,
   fun _ _ => none, fun _ => 0⟩

/-- A small configuration (window 1, cap 10) for stuck-detection witnesses. -/
def qStuckCfg : SimCfg ℚ := ⟨qOps, 1 / 1000, 1, 10, 1000⟩

/-- The rng stream of the C9 counterexample: the first die draws exactly
the spot that will later be die 1's fallback position, every following
attempt draws the centre of the arena. -/
def clashRng : ℕ → ℚ := fun k => if k = 0 then 49 / 80 else if k = 1 then 0 else 1 / 2

/-- The resolution invariant: `N` roll entries and `N` settled flags, every
face value between `lo` (the variant's initial fill: 1 in part_000, 0 in
`src/main.ts`) and 6. -/
def rollOK (lo N : ℕ) (s : SimState α) : Prop :=
  s.roll.length = N ∧ s.settled.length = N ∧ ∀ v ∈ s.roll, lo ≤ v ∧ v ≤ 6

theorem getFaceUp_eq_specFaceUp (pi : α) (e : V3 α) :
    getFaceUp pi e = specFaceUp pi e.x e.z := by
  have habs : ∀ a : α, |pi / 2 + a| = |a - -(pi / 2)| := by
    intro a
    rw [sub_neg_eq_add, add_comm]
  have habs2 : ∀ a : α, |pi - a| = |a - pi| := fun a => abs_sub_comm ..
  have habs3 : ∀ a : α, |pi + a| = |a + pi| := by
    intro a
    rw [add_comm]
  simp only [getFaceUp, specFaceUp, sub_zero, habs, habs2, habs3]

/-- An absolute value is at least `c` when either the value or its negation
is.  Used to discharge the classifier's tolerance tests at `π`-multiples. -/
theorem not_abs_lt_of_le {c a : ℝ} (h : c ≤ a ∨ c ≤ -a) : ¬|a| < c :=
  not_lt.mpr (le_abs.mpr h)

/-- C1: the face classifier follows exactly the specified decision order with
tolerance ε = 0.1 rad (proved as an equivalence with `specFaceUp`, the
decision tree transcribed from the specification's words); each of the six
canonical face-up Euler rotations classifies to its matching face (both `π`
and `-π` for face 6), and an orientation exactly between two valid states
(x or z angle of `π/4`) classifies as indeterminate (0). -/
theorem C1_classifier_decision_order :
    (∀ e : V3 ℝ, getFaceUp Real.pi e = specFaceUp Real.pi e.x e.z) ∧
    getFaceUp Real.pi ⟨0, 0, 0⟩ = 1 ∧
    getFaceUp Real.pi ⟨Real.pi / 2, 0, 0⟩ = 4 ∧
    getFaceUp Real.pi ⟨-(Real.pi / 2), 0, 0⟩ = 3 ∧
    getFaceUp Real.pi ⟨Real.pi, 0, 0⟩ = 6 ∧
    getFaceUp Real.pi ⟨-Real.pi, 0, 0⟩ = 6 ∧
    getFaceUp Real.pi ⟨0, 0, Real.pi / 2⟩ = 2 ∧
    getFaceUp Real.pi ⟨0, 0, -(Real.pi / 2)⟩ = 5 ∧
    getFaceUp Real.pi ⟨Real.pi / 4, 0, 0⟩ = 0 ∧
    getFaceUp Real.pi ⟨0, 0, Real.pi / 4⟩ = 0 := by
  have hgt := Real.pi_gt_d6
  have hlt := Real.pi_lt_d6
  have hhalf : ¬|Real.pi / 2| < 1 / 10 :=
    not_abs_lt_of_le (Or.inl (by linarith))
  have hneghalf : ¬|-(Real.pi / 2)| < 1 / 10 :=
    not_abs_lt_of_le (Or.inr (by linarith))
  have hquarter : ¬|Real.pi / 4| < 1 / 10 :=
    not_abs_lt_of_le (Or.inl (by linarith))
  have hla : (1 / 10 : ℝ) ≤ |Real.pi / 2| := le_abs.mpr (Or.inl (by linarith))
  have hlb : (1 / 10 : ℝ) ≤ |Real.pi| := le_abs.mpr (Or.inl (by linarith))
  refine ⟨fun e => getFaceUp_eq_specFaceUp Real.pi e, ?_, ?_, ?_, ?_, ?_, ?_, ?_, ?_, ?_⟩
  · norm_num [getFaceUp]
  · simp only [getFaceUp]
    norm_num [hhalf]
  · have h2 : ¬|-(Real.pi / 2) - Real.pi / 2| < 1 / 10 :=
      not_abs_lt_of_le (Or.inr (by linarith))
    simp only [getFaceUp]
    norm_num [hneghalf, h2, hla]
  · have h1 : ¬|Real.pi| < 1 / 10 := not_abs_lt_of_le (Or.inl (by linarith))
    have h2 : ¬|Real.pi - Real.pi / 2| < 1 / 10 :=
      not_abs_lt_of_le (Or.inl (by linarith))
    have h3 : ¬|Real.pi / 2 + Real.pi| < 1 / 10 :=
      not_abs_lt_of_le (Or.inl (by linarith))
    simp only [getFaceUp]
    norm_num [h1, h2, h3]
  · have h1 : ¬|-Real.pi| < 1 / 10 := not_abs_lt_of_le (Or.inr (by linarith))
    have h2 : ¬|-Real.pi - Real.pi / 2| < 1 / 10 :=
      not_abs_lt_of_le (Or.inr (by linarith))
    have h3 : ¬|Real.pi / 2 + -Real.pi| < 1 / 10 :=
      not_abs_lt_of_le (Or.inr (by linarith))
    have h4 : |Real.pi + -Real.pi| < (1 / 10 : ℝ) := by
      norm_num
    simp only [getFaceUp]
    norm_num [h1, h2, h3, h4, hlb]
  · simp only [getFaceUp]
    norm_num [hhalf]
  · have h2 : ¬|-(Real.pi / 2) - Real.pi / 2| < 1 / 10 :=
      not_abs_lt_of_le (Or.inr (by linarith))
    simp only [getFaceUp]
    norm_num [hneghalf, h2, hla]
  · have h2 : ¬|Real.pi / 4 - Real.pi / 2| < 1 / 10 :=
      not_abs_lt_of_le (Or.inr (by linarith))
    have h3 : ¬|Real.pi / 2 + Real.pi / 4| < 1 / 10 :=
      not_abs_lt_of_le (Or.inl (by linarith))
    have h4 : ¬|Real.pi - Real.pi / 4| < 1 / 10 :=
      not_abs_lt_of_le (Or.inl (by linarith))
    have h5 : ¬|Real.pi + Real.pi / 4| < 1 / 10 :=
      not_abs_lt_of_le (Or.inl (by linarith))
    simp only [getFaceUp]
    norm_num [hquarter, h2, h3, h4, h5]
  · have h2 : ¬|Real.pi / 4 - Real.pi / 2| < 1 / 10 :=
      not_abs_lt_of_le (Or.inr (by linarith))
    have h3 : ¬|Real.pi / 2 + Real.pi / 4| < 1 / 10 :=
      not_abs_lt_of_le (Or.inl (by linarith))
    simp only [getFaceUp]
    norm_num [hquarter, h2, h3]

/-- Explicit form of the quaternion action on a vector (the rotation-matrix
expansion of `q v q*`, valid for every quaternion). -/
theorem qrot_explicit (q : Q4 α) (v : V3 α) :
    qrot q v =
      ⟨(q.w * q.w + q.x * q.x - q.y * q.y - q.z * q.z) * v.x
         + 2 * (q.x * q.y - q.w * q.z) * v.y + 2 * (q.x * q.z + q.w * q.y) * v.z,
       2 * (q.x * q.y + q.w * q.z) * v.x
         + (q.w * q.w - q.x * q.x + q.y * q.y - q.z * q.z) * v.y
         + 2 * (q.y * q.z - q.w * q.x) * v.z,
       2 * (q.x * q.z - q.w * q.y) * v.x + 2 * (q.y * q.z + q.w * q.x) * v.y
         + (q.w * q.w - q.x * q.x - q.y * q.y + q.z * q.z) * v.z⟩ := by
  ext <;> simp [qrot, qmul, qconj, qofV3] <;> ring

/-- The action is a homomorphism: composing orientations composes actions. -/
theorem qrot_qmul (p q : Q4 α) (v : V3 α) :
    qrot (qmul p q) v = qrot p (qrot q v) := by
  ext <;> simp [qrot, qmul, qconj, qofV3] <;> ring

/-- The identity quaternion acts as the identity. -/
theorem qrot_one (v : V3 α) : qrot qone v = v := by
  ext <;> simp [qrot, qmul, qconj, qone, qofV3]

set_option maxHeartbeats 2000000 in
/-- Core verification of the corrector table: for each of the 30 ordered
pairs of distinct faces, the table's rotation maps the *desired* face's
outward normal onto the *actual* face's outward normal (so composed in the
body frame it turns an `actual`-up orientation into a `desired`-up one). -/
theorem desiredQuat_maps_normal :
    ∀ a d : ℕ, 1 ≤ a → a ≤ 6 → 1 ≤ d → d ≤ 6 → a ≠ d →
      qrot (desiredQuat realOps a d) (faceNormal d) = (faceNormal a : V3 ℝ) := by
  have hs2 : Real.sqrt 2 * Real.sqrt 2 = 2 := Real.mul_self_sqrt (by norm_num)
  have hd2 : (Real.sqrt 2)⁻¹ = Real.sqrt 2 / 2 := by
    field_simp
  have hc4 : Real.cos (Real.pi / 2 / 2) = Real.sqrt 2 / 2 := by
    rw [show Real.pi / 2 / 2 = Real.pi / 4 by ring, Real.cos_pi_div_four]
  have hs4 : Real.sin (Real.pi / 2 / 2) = Real.sqrt 2 / 2 := by
    rw [show Real.pi / 2 / 2 = Real.pi / 4 by ring, Real.sin_pi_div_four]
  have hc2 : Real.cos (Real.pi / 2) = 0 := Real.cos_pi_div_two
  have hsn2 : Real.sin (Real.pi / 2) = 1 := Real.sin_pi_div_two
  intro a d ha1 ha6 hd1 hd6 hne
  interval_cases a <;> interval_cases d <;>
    first
    | exact absurd rfl hne
    | (simp only [desiredQuat, desiredAxisAngle]
       norm_num
       rw [qrot_explicit]
       simp only [quatOfAxisAngle, v3normalize, v3len, realOps, faceNormal]
       norm_num [hc4, hs4, hc2, hsn2, Real.sqrt_one, hd2, neg_div, one_div]
       all_goals nlinarith [hs2])

/-- Consistency of `faceNormal` with the classifier's convention: rotating
by the canonical orientation of face `f` carries `faceNormal f` to world up.
(The canonical Euler triples are the ones `C1_classifier_decision_order`
shows the classifier maps to each face.) -/
theorem canonicalQuat_up :
    ∀ f : ℕ, 1 ≤ f → f ≤ 6 →
      qrot (canonicalQuat realOps f) (faceNormal f) = (yhat : V3 ℝ) := by
  have hs2 : Real.sqrt 2 * Real.sqrt 2 = 2 := Real.mul_self_sqrt (by norm_num)
  have hc4 : Real.cos (Real.pi / 2 / 2) = Real.sqrt 2 / 2 := by
    rw [show Real.pi / 2 / 2 = Real.pi / 4 by ring, Real.cos_pi_div_four]
  have hs4 : Real.sin (Real.pi / 2 / 2) = Real.sqrt 2 / 2 := by
    rw [show Real.pi / 2 / 2 = Real.pi / 4 by ring, Real.sin_pi_div_four]
  have hcn4 : Real.cos (-(Real.pi / 2) / 2) = Real.sqrt 2 / 2 := by
    rw [show -(Real.pi / 2) / 2 = -(Real.pi / 4) by ring, Real.cos_neg,
      Real.cos_pi_div_four]
  have hsn4 : Real.sin (-(Real.pi / 2) / 2) = -(Real.sqrt 2 / 2) := by
    rw [show -(Real.pi / 2) / 2 = -(Real.pi / 4) by ring, Real.sin_neg,
      Real.sin_pi_div_four]
  have hc2 : Real.cos (Real.pi / 2) = 0 := Real.cos_pi_div_two
  have hsn2 : Real.sin (Real.pi / 2) = 1 := Real.sin_pi_div_two
  intro f h1 h6
  interval_cases f <;>
    (simp only [canonicalQuat]
     rw [qrot_explicit]
     simp only [quatOfAxisAngle, realOps, faceNormal, yhat]
     norm_num [hc4, hs4, hcn4, hsn4, hc2, hsn2]
     all_goals nlinarith [hs2])

/-- C2 counterexample: the claim's parenthetical direction is false on the
code.  The corrector's rotation for `(actual, desired) = (1, 2)` does *not*
map face 1's outward normal to face 2's outward normal (it maps it to face
5's normal); it is its inverse that maps actual to desired. -/
theorem C2_corrector_counterexample :
    qrot (desiredQuat realOps 1 2) (faceNormal 1) ≠ (faceNormal 2 : V3 ℝ) := by
  have hs2 : Real.sqrt 2 * Real.sqrt 2 = 2 := Real.mul_self_sqrt (by norm_num)
  have hc4 : Real.cos (Real.pi / 2 / 2) = Real.sqrt 2 / 2 := by
    rw [show Real.pi / 2 / 2 = Real.pi / 4 by ring, Real.cos_pi_div_four]
  have hs4 : Real.sin (Real.pi / 2 / 2) = Real.sqrt 2 / 2 := by
    rw [show Real.pi / 2 / 2 = Real.pi / 4 by ring, Real.sin_pi_div_four]
  have h : qrot (desiredQuat realOps 1 2) (faceNormal 1) = (faceNormal 5 : V3 ℝ) := by
    simp only [desiredQuat, desiredAxisAngle]
    norm_num
    rw [qrot_explicit]
    simp only [quatOfAxisAngle, v3normalize, v3len, realOps, faceNormal]
    norm_num [hc4, hs4, Real.sqrt_one]
    all_goals nlinarith [hs2]
  rw [h]
  simp only [faceNormal]
  intro hEq
  have hx := congrArg V3.x hEq
  norm_num at hx

/-- C2 (amended): `makeDesired` is a no-op on the displayed orientation when
`actual = desired`; for each of the 30 ordered pairs with `actual ≠ desired`
the corrective rotation maps the **desired** face's outward normal to the
**actual** face's outward normal, and consequently—because the correction is
composed on the right, i.e. in the body frame—applying it to any orientation
whose up-face is `actual` yields a displayed orientation whose up-face is
`desired`. -/
theorem C2_corrector_amended :
    ∀ a d : ℕ, 1 ≤ a → a ≤ 6 → 1 ≤ d → d ≤ 6 →
      (a = d → ∀ q : Q4 ℝ, makeDesired realOps q a d = q) ∧
      (a ≠ d →
        qrot (desiredQuat realOps a d) (faceNormal d) = faceNormal a ∧
        ∀ q : Q4 ℝ, qrot q (faceNormal a) = yhat →
          qrot (makeDesired realOps q a d) (faceNormal d) = yhat) := by
  intro a d ha1 ha6 hd1 hd6
  constructor
  · intro hEq q
    simp [makeDesired, hEq]
  · intro hne
    have hmap := desiredQuat_maps_normal a d ha1 ha6 hd1 hd6 hne
    refine ⟨hmap, fun q hup => ?_⟩
    rw [makeDesired, if_neg hne, qrot_qmul, hmap, hup]

/-- Witness for `C2_corrector_amended` at `(actual, desired) = (1, 2)` and
the identity starting orientation. -/
theorem C2_corrector_amended_witness :
    qrot (makeDesired realOps qone 1 2) (faceNormal 2) = (yhat : V3 ℝ) :=
  ((C2_corrector_amended 1 2 (by norm_num) (by norm_num) (by norm_num)
      (by norm_num)).2 (by norm_num)).2 qone
    (by rw [qrot_one]; rfl)

/-- C4: a rendered frame never mutates the trajectory record or the
classified roll result (the session component of the playback state is
returned untouched), and the displayed poses a frame produces do not depend
on the meshes' previous poses — each frame rewrites the meshes from the
record before composing the magic correction, so the correction cannot
accumulate across frames. -/
theorem C4_magic_never_mutates_record [FloorRing α] (ops : RealOps α)
    (slerpFn : Q4 α → Q4 α → α → Q4 α) (cfg : RenderCfg)
    (w : RenderSession α × RenderState α) (now : α) :
    (renderStep ops slerpFn cfg w now).1 = w.1 ∧
    ∀ (sess : RenderSession α) (st : RenderState α) (m : List (Pose α)),
      m.length = st.meshes.length →
      renderFrame ops slerpFn cfg sess now { st with meshes := m } =
        renderFrame ops slerpFn cfg sess now st := by
  refine ⟨rfl, fun sess st m hlen => ?_⟩
  simp only [renderFrame, hlen]

/-- Witness for `C4_magic_never_mutates_record` on a concrete magic-enabled
frame. -/
theorem C4_magic_never_mutates_record_witness :
    (renderStep qOps (fun a _ _ => a) ⟨false, true, true, [2]⟩
        (⟨[3], [[pose0]], 7, 7, 0⟩, ⟨[pose0], 0, 0, 0⟩) 5).1 = ⟨[3], [[pose0]], 7, 7, 0⟩ ∧
    renderFrame qOps (fun a _ _ => a) ⟨false, true, true, [2]⟩ ⟨[3], [[pose0]], 7, 7, 0⟩ 5
        { (⟨[pose0], 0, 0, 0⟩ : RenderState ℚ) with meshes := [⟨⟨1, 1, 1⟩, qone⟩] } =
      renderFrame qOps (fun a _ _ => a) ⟨false, true, true, [2]⟩ ⟨[3], [[pose0]], 7, 7, 0⟩ 5
        ⟨[pose0], 0, 0, 0⟩ :=
  ⟨(C4_magic_never_mutates_record qOps (fun a _ _ => a) ⟨false, true, true, [2]⟩
      (⟨[3], [[pose0]], 7, 7, 0⟩, ⟨[pose0], 0, 0, 0⟩) 5).1,
   (C4_magic_never_mutates_record qOps (fun a _ _ => a) ⟨false, true, true, [2]⟩
      (⟨[3], [[pose0]], 7, 7, 0⟩, ⟨[pose0], 0, 0, 0⟩) 5).2
     ⟨[3], [[pose0]], 7, 7, 0⟩ ⟨[pose0], 0, 0, 0⟩ [⟨⟨1, 1, 1⟩, qone⟩] (by decide)⟩

/-- C7: in interpolated mode (with magic off) a frame displays exactly what
the specification's interpolation rule prescribes — fractional step
`s = t × 60` for elapsed seconds `t`, `i = clamp(⌊s⌋, 0, last)`, `j = ⌈s⌉`,
lerp/slerp between samples `i` and `j` by `s − i` when sample `j` exists
(rescheduling only while the session token is current), and the exact snap
to sample `i` with no reschedule once `j` exceeds the record. -/
theorem C7_interpolated_playback [FloorRing α] (ops : RealOps α)
    (slerpFn : Q4 α → Q4 α → α → Q4 α) (sf : Bool) (des : List ℕ)
    (sess : RenderSession α) (now : α) (st : RenderState α) :
    (renderFrame ops slerpFn ⟨false, false, sf, des⟩ sess now st).meshes =
      (specInterpFrame slerpFn sess.simulationRecord ((now - sess.start) / 1000)
        (sess.id == sess.renderId) st.meshes.length).1 ∧
    (renderFrame ops slerpFn ⟨false, false, sf, des⟩ sess now st).rescheduled =
      (specInterpFrame slerpFn sess.simulationRecord ((now - sess.start) / 1000)
        (sess.id == sess.renderId) st.meshes.length).2 := by
  simp only [renderFrame, specInterpFrame, applyMagic, Bool.false_eq_true, if_false]
  split_ifs <;> simp

/-- C6 counterexample: a stale interpolated-mode callback (token `0`, current
token `1`) still renders its frame and still appends an export frame; only
the rescheduling stops.  The claim said a stale callback renders nothing and
exports nothing. -/
theorem C6_cancellation_counterexample :
    (0 : ℕ) ≠ 1 ∧
    (renderFrame qOps (fun a _ _ => a) ⟨false, false, true, []⟩
        ⟨[], [[pose0]], 0, 1, 0⟩ 0 ⟨[pose0], 0, 0, 0⟩).rendered = true ∧
    (renderFrame qOps (fun a _ _ => a) ⟨false, false, true, []⟩
        ⟨[], [[pose0]], 0, 1, 0⟩ 0 ⟨[pose0], 0, 0, 0⟩).storedFrames = 1 ∧
    (renderFrame qOps (fun a _ _ => a) ⟨false, false, true, []⟩
        ⟨[], [[pose0]], 0, 1, 0⟩ 0 ⟨[pose0], 0, 0, 0⟩).rescheduled = false := by
  refine ⟨by decide, ?_, ?_, ?_⟩ <;>
    simp [renderFrame, clampI, sampleAt, applyMagic]

/-- C6 (amended): a scheduled callback whose token no longer matches the
current token never reschedules itself — so at most the one in-flight
callback of a superseded session runs, and no further frames follow — but
that in-flight callback still does its visible work: outside the fixed-mode
terminal frame it renders, and it appends an export frame when export is
enabled. -/
theorem C6_stale_callback_no_further_frames [FloorRing α] (ops : RealOps α)
    (slerpFn : Q4 α → Q4 α → α → Q4 α) (cfg : RenderCfg)
    (sess : RenderSession α) (now : α) (st : RenderState α)
    (h : sess.id ≠ sess.renderId) :
    (renderFrame ops slerpFn cfg sess now st).rescheduled = false ∧
    (cfg.renderFixedFrames = false →
      (renderFrame ops slerpFn cfg sess now st).rendered = true ∧
      (renderFrame ops slerpFn cfg sess now st).storedFrames =
        (if cfg.storeFrames then st.storedFrames + 1 else st.storedFrames)) := by
  have hbeq : (sess.id == sess.renderId) = false := beq_eq_false_iff_ne.mpr h
  constructor
  · simp only [renderFrame, hbeq]
    split_ifs <;> rfl
  · intro hmode
    simp only [renderFrame, hmode, Bool.false_eq_true, if_false]
    split_ifs <;> exact ⟨rfl, rfl⟩

/-- Witness for `C6_stale_callback_no_further_frames` on a concrete stale
interpolated callback. -/
theorem C6_stale_callback_no_further_frames_witness :
    (renderFrame qOps (fun a _ _ => a) ⟨false, false, true, []⟩
        ⟨[], [[pose0]], 0, 1, 0⟩ 0 ⟨[pose0], 0, 0, 0⟩).rescheduled = false :=
  (C6_stale_callback_no_further_frames qOps (fun a _ _ => a) ⟨false, false, true, []⟩
    ⟨[], [[pose0]], 0, 1, 0⟩ 0 ⟨[pose0], 0, 0, 0⟩ (by decide)).1

/-- C10 counterexample: at the fixed-frame terminal index, with the token
current and export enabled, the callback reschedules itself but renders
nothing and appends **no** export frame (the early `return` skips the
render/export step).  The claim said it re-renders and appends further
export frames. -/
theorem C10_fixed_terminal_counterexample :
    (renderFrame qOps (fun a _ _ => a) ⟨true, false, true, []⟩
        ⟨[], [[pose0]], 5, 5, 0⟩ 0 ⟨[pose0], 0, 0, 0⟩).rescheduled = true ∧
    (renderFrame qOps (fun a _ _ => a) ⟨true, false, true, []⟩
        ⟨[], [[pose0]], 5, 5, 0⟩ 0 ⟨[pose0], 0, 0, 0⟩).rendered = false ∧
    (renderFrame qOps (fun a _ _ => a) ⟨true, false, true, []⟩
        ⟨[], [[pose0]], 5, 5, 0⟩ 0 ⟨[pose0], 0, 0, 0⟩).storedFrames = 0 ∧
    (renderFrame qOps (fun a _ _ => a) ⟨true, false, true, []⟩
        ⟨[], [[pose0]], 5, 5, 0⟩ 0 ⟨[pose0], 0, 0, 0⟩).fixedFrameIdx = 0 := by
  decide

/-- C10 (amended): once fixed-frame playback reaches the last trajectory
sample, each callback copies that sample to the meshes and keeps
rescheduling itself exactly while its token is current — the chain does not
terminate on its own and the index stops advancing — but it returns before
the render/export step, so it renders nothing and appends no further export
frames. -/
theorem C10_fixed_terminal_behavior [FloorRing α] (ops : RealOps α)
    (slerpFn : Q4 α → Q4 α → α → Q4 α) (cfg : RenderCfg)
    (sess : RenderSession α) (now : α) (st : RenderState α)
    (hmode : cfg.renderFixedFrames = true)
    (hterm : sess.simulationRecord.length - 1 ≤ st.fixedFrameIdx) :
    (renderFrame ops slerpFn cfg sess now st).fixedFrameIdx = st.fixedFrameIdx ∧
    (renderFrame ops slerpFn cfg sess now st).storedFrames = st.storedFrames ∧
    (renderFrame ops slerpFn cfg sess now st).rendered = false ∧
    (renderFrame ops slerpFn cfg sess now st).rescheduled = (sess.id == sess.renderId) ∧
    (renderFrame ops slerpFn cfg sess now st).meshes =
      ((List.range st.meshes.length).map fun idx =>
        sampleAt sess.simulationRecord st.fixedFrameIdx idx) := by
  simp [renderFrame, hmode, hterm]

/-- Witness for `C10_fixed_terminal_behavior` on a concrete terminal frame
of a current session. -/
theorem C10_fixed_terminal_behavior_witness :
    (renderFrame qOps (fun a _ _ => a) ⟨true, false, true, []⟩
        ⟨[], [[pose0]], 5, 5, 0⟩ 0 ⟨[pose0], 0, 0, 0⟩).storedFrames = 0 ∧
    (renderFrame qOps (fun a _ _ => a) ⟨true, false, true, []⟩
        ⟨[], [[pose0]], 5, 5, 0⟩ 0 ⟨[pose0], 0, 0, 0⟩).rendered = false :=
  ⟨(C10_fixed_terminal_behavior qOps (fun a _ _ => a) ⟨true, false, true, []⟩
      ⟨[], [[pose0]], 5, 5, 0⟩ 0 ⟨[pose0], 0, 0, 0⟩ (by decide) (by decide)).2.1,
   (C10_fixed_terminal_behavior qOps (fun a _ _ => a) ⟨true, false, true, []⟩
      ⟨[], [[pose0]], 5, 5, 0⟩ 0 ⟨[pose0], 0, 0, 0⟩ (by decide) (by decide)).2.2.1⟩

/-- The classifier only ever returns 0–6. -/
theorem getFaceUp_le_six (pi : α) (e : V3 α) : getFaceUp pi e ≤ 6 := by
  simp only [getFaceUp]
  split_ifs <;> norm_num

theorem processSleeps_fst_length (pi : α) (ev : ℕ → Option (V3 α))
    (roll : List ℕ) (settled : List Bool) :
    (processSleeps pi ev roll settled).1.length = roll.length := by
  simp [processSleeps]

theorem processSleeps_snd_length (pi : α) (ev : ℕ → Option (V3 α))
    (roll : List ℕ) (settled : List Bool) :
    (processSleeps pi ev roll settled).2.length = roll.length := by
  simp [processSleeps]

/-- A sleep handler writes only valid faces (or leaves the entry alone). -/
theorem stepSleep_bounds (pi : α) (ev : Option (V3 α)) (c : ℕ × Bool) (lo : ℕ)
    (hlo : lo ≤ 1) (h : lo ≤ c.1 ∧ c.1 ≤ 6) :
    lo ≤ (stepSleep pi ev c).1 ∧ (stepSleep pi ev c).1 ≤ 6 := by
  rcases ev with _ | e
  · exact h
  · simp only [stepSleep]
    split_ifs with h1 h2
    · exact h
    · exact ⟨le_trans hlo (Nat.one_le_iff_ne_zero.mpr h2), getFaceUp_le_six pi e⟩
    · exact h

theorem processSleeps_mem (pi : α) (ev : ℕ → Option (V3 α)) (roll : List ℕ)
    (settled : List Bool) (lo : ℕ) (hlo : lo ≤ 1)
    (h : ∀ w ∈ roll, lo ≤ w ∧ w ≤ 6) :
    ∀ v ∈ (processSleeps pi ev roll settled).1, lo ≤ v ∧ v ≤ 6 := by
  intro v hv
  simp only [processSleeps, List.map_map, List.mem_map, List.mem_range,
    Function.comp] at hv
  obtain ⟨d, hd, rfl⟩ := hv
  refine stepSleep_bounds _ _ _ _ hlo (h _ ?_)
  rw [List.getD_eq_getElem roll 0 hd]
  exact List.getElem_mem hd

/-- One loop iteration preserves the resolution invariant. -/
theorem simStep_inv (cfg : SimCfg α) (env : SimEnv α) (N rc : ℕ)
    (s : SimState α) (lo : ℕ) (hlo : lo ≤ 1) (h : rollOK lo N s) :
    match simStep cfg env N rc s with
    | .next s1 => rollOK lo N s1
    | .halt s1 => rollOK lo N s1
    | .retryNow => True := by
  obtain ⟨h1, h2, h3⟩ := h
  have hl1 : (processSleeps cfg.ops.pi (fun d => env.sleepAt (s.i + 1) d)
      s.roll s.settled).1.length = N := by
    rw [processSleeps_fst_length, h1]
  have hl2 : (processSleeps cfg.ops.pi (fun d => env.sleepAt (s.i + 1) d)
      s.roll s.settled).2.length = N := by
    rw [processSleeps_snd_length, h1]
  have hm := processSleeps_mem cfg.ops.pi
    (fun d => env.sleepAt (s.i + 1) d) s.roll s.settled lo hlo h3
  simp only [simStep]
  split_ifs <;> dsimp only <;>
    first
    | exact ⟨h1, h2, h3⟩
    | exact ⟨hl1, hl2, hm⟩
    | trivial

/-- Running the loop preserves the resolution invariant. -/
theorem runLoopFuel_inv (cfg : SimCfg α) (env : SimEnv α) (N rc lo : ℕ)
    (hlo : lo ≤ 1) :
    ∀ (fuel : ℕ) (s : SimState α), rollOK lo N s →
      match runLoopFuel cfg env N rc fuel s with
      | .finished s1 => rollOK lo N s1
      | .retrySignal => True
  | 0, _, hs => hs
  | fuel + 1, s, hs => by
    have h := simStep_inv cfg env N rc s lo hlo hs
    simp only [runLoopFuel]
    cases hstep : simStep cfg env N rc s with
    | halt s1 =>
      rw [hstep] at h
      exact h
    | retryNow => trivial
    | next s1 =>
      rw [hstep] at h
      exact runLoopFuel_inv cfg env N rc lo hlo fuel s1 h

theorem finishUp_rollOK (env : SimEnv α) (N lo : ℕ) (s : SimState α)
    (h : rollOK lo N s) : rollOK lo N (finishUp env N s) := h

theorem finishUp_record_pos (env : SimEnv α) (N : ℕ) (s : SimState α) :
    1 ≤ (finishUp env N s).record.length := by
  simp [finishUp]

theorem initSimState_rollOK (lo f N : ℕ) (hl : lo ≤ f) (hf : f ≤ 6) :
    rollOK lo N (initSimState f N : SimState α) := by
  refine ⟨by simp [initSimState], by simp [initSimState], ?_⟩
  intro v hv
  simp only [initSimState, List.mem_replicate] at hv
  omega

/-- The retried resolution preserves the invariant for every fuel. -/
theorem resolveFuel_inv (cfg : SimCfg α) (envs : ℕ → SimEnv α) (N fuel : ℕ) :
    ∀ (rfuel rc : ℕ), rollOK 1 N (resolveFuel cfg envs N fuel rfuel rc)
  | 0, rc =>
    finishUp_rollOK _ _ _ _ (initSimState_rollOK 1 1 N le_rfl (by norm_num))
  | rfuel + 1, rc => by
    simp only [resolveFuel]
    have h := runLoopFuel_inv cfg (envs rc) N rc 1 le_rfl fuel (initSimState 1 N)
      (initSimState_rollOK 1 1 N le_rfl (by norm_num))
    cases hrun : runLoopFuel cfg (envs rc) N rc fuel (initSimState 1 N) with
    | finished s =>
      rw [hrun] at h
      exact finishUp_rollOK _ _ _ _ h
    | retrySignal => exact resolveFuel_inv cfg envs N fuel rfuel (rc + 1)

theorem resolveFuel_record_pos (cfg : SimCfg α) (envs : ℕ → SimEnv α)
    (N fuel : ℕ) :
    ∀ (rfuel rc : ℕ), 1 ≤ (resolveFuel cfg envs N fuel rfuel rc).record.length
  | 0, rc => finishUp_record_pos _ _ _
  | rfuel + 1, rc => by
    simp only [resolveFuel]
    cases hrun : runLoopFuel cfg (envs rc) N rc fuel (initSimState 1 N) with
    | finished s => exact finishUp_record_pos _ _ _
    | retrySignal => exact resolveFuel_record_pos cfg envs N fuel rfuel (rc + 1)

/-- One `src/main.ts` iteration preserves the invariant (with `lo = 0`). -/
theorem simStepMain_inv (pi : α) (env : SimEnv α) (N : ℕ) (s : SimState α)
    (h : rollOK 0 N s) :
    match simStepMain pi env N s with
    | .next s1 => rollOK 0 N s1
    | .halt s1 => rollOK 0 N s1 := by
  obtain ⟨h1, h2, h3⟩ := h
  have hl1 : (processSleeps pi (fun d => env.sleepAt (s.i + 1) d)
      s.roll s.settled).1.length = N := by
    rw [processSleeps_fst_length, h1]
  have hl2 : (processSleeps pi (fun d => env.sleepAt (s.i + 1) d)
      s.roll s.settled).2.length = N := by
    rw [processSleeps_snd_length, h1]
  have hm := processSleeps_mem pi
    (fun d => env.sleepAt (s.i + 1) d) s.roll s.settled 0 (by norm_num) h3
  simp only [simStepMain]
  split_ifs <;> dsimp only <;>
    first
    | exact ⟨h1, h2, h3⟩
    | exact ⟨hl1, hl2, hm⟩

theorem runMainFuel_inv (pi : α) (env : SimEnv α) (N : ℕ) :
    ∀ (fuel : ℕ) (s : SimState α), rollOK 0 N s →
      rollOK 0 N (runMainFuel pi env N fuel s)
  | 0, _, hs => hs
  | fuel + 1, s, hs => by
    have h := simStepMain_inv pi env N s hs
    simp only [runMainFuel]
    cases hstep : simStepMain pi env N s with
    | halt s1 =>
      rw [hstep] at h
      exact h
    | next s1 =>
      rw [hstep] at h
      exact runMainFuel_inv pi env N fuel s1 h

/-- A `next` outcome of a `src/main.ts` iteration advances the step counter
by one and means the deadline had not yet passed at that check. -/
theorem simStepMain_next_elim (pi : α) (env : SimEnv α) (N : ℕ)
    (s s1 : SimState α) (h : simStepMain pi env N s = .next s1) :
    s1.i = s.i + 1 ∧ ¬(1000 : α) < env.elapsed (s.i + 1) := by
  simp only [simStepMain] at h
  split_ifs at h with h1 h2
  all_goals cases h
  exact ⟨rfl, h2⟩

/-- Fuel-independence of the `src/main.ts` loop: once the wall clock is past
the deadline at step `k`, any two fuels that allow reaching step `k` give
the same run. -/
theorem runMainFuel_stable (pi : α) (env : SimEnv α) (N k : ℕ)
    (hm : Monotone env.elapsed) (hk : (1000 : α) < env.elapsed k) :
    ∀ (f₁ f₂ : ℕ) (s : SimState α), s.i ≤ k → k < s.i + f₁ → k < s.i + f₂ →
      runMainFuel pi env N f₁ s = runMainFuel pi env N f₂ s := by
  intro f₁
  induction f₁ with
  | zero =>
    intro f₂ s hsi h1 h2
    omega
  | succ f ih =>
    intro f₂ s hsi h1 h2
    rcases f₂ with _ | f₂
    · omega
    · simp only [runMainFuel]
      cases hstep : simStepMain pi env N s with
      | halt s1 => rfl
      | next s1 =>
        obtain ⟨hi, hlate⟩ := simStepMain_next_elim pi env N s s1 hstep
        have hik : s1.i ≤ k := by
          by_contra hgt
          exact hlate (lt_of_lt_of_le hk (hm (by omega)))
        exact ih f₂ s1 hik (by omega) (by omega)

/-- C3 (amended): resolution is total and complete in both variants — for
every environment, die count and fuel, part_000's `simulateThrow` returns
exactly `N` face values all in `{1..6}` (its timeout fallback entry is the
initial fill `1`), while `src/main.ts`'s returns exactly `N` values all at
most 6 but leaves `0` (not a valid face) in the entries of dice unsettled
at the deadline; both always produce a nonempty trajectory record.  The
loop terminates through the wall-clock deadline: once the clock passes the
deadline at some step `k`, the result no longer depends on the fuel bound,
so the fuelled model is exact for any sufficient fuel. -/
theorem C3_resolution_totality :
    (∀ (cfg : SimCfg α) (envs : ℕ → SimEnv α) (N fuel : ℕ),
      (simulateThrowP0 cfg envs N fuel).1.length = N ∧
      (∀ v ∈ (simulateThrowP0 cfg envs N fuel).1, 1 ≤ v ∧ v ≤ 6) ∧
      1 ≤ (simulateThrowP0 cfg envs N fuel).2.length) ∧
    (∀ (pi : α) (env : SimEnv α) (N fuel : ℕ),
      (simulateThrowMain pi env N fuel).1.length = N ∧
      (∀ v ∈ (simulateThrowMain pi env N fuel).1, v ≤ 6) ∧
      1 ≤ (simulateThrowMain pi env N fuel).2.length) ∧
    (∀ (pi : α) (env : SimEnv α) (N k f₁ f₂ : ℕ),
      Monotone env.elapsed → (1000 : α) < env.elapsed k → k < f₁ → k < f₂ →
      simulateThrowMain pi env N f₁ = simulateThrowMain pi env N f₂) := by
  refine ⟨?_, ?_, ?_⟩
  · intro cfg envs N fuel
    obtain ⟨ha, _, hc⟩ := resolveFuel_inv cfg envs N fuel (cfg.cap + 1) 0
    exact ⟨ha, hc, resolveFuel_record_pos cfg envs N fuel (cfg.cap + 1) 0⟩
  · intro pi env N fuel
    have h := runMainFuel_inv pi env N fuel (initSimState 0 N)
      (initSimState_rollOK 0 0 N le_rfl (by norm_num))
    obtain ⟨ha, _, hc⟩ := finishUp_rollOK env N 0 _ h
    refine ⟨ha, fun v hv => (hc v hv).2, ?_⟩
    simp [simulateThrowMain, finishUp]
  · intro pi env N k f₁ f₂ hm hk h1 h2
    have := runMainFuel_stable pi env N k hm hk f₁ f₂ (initSimState 0 N)
      (by simp [initSimState]) (by simp [initSimState]; omega) (by simp [initSimState]; omega)
    simp only [simulateThrowMain, this]

/-- Witness for `C3_resolution_totality`: a concrete 1-die run whose clock
ramps past the deadline at step 1, so fuels 2 and 3 agree. -/
theorem C3_resolution_totality_witness :
    simulateThrowMain (3 : ℚ) rampEnv 1 2 = simulateThrowMain (3 : ℚ) rampEnv 1 3 :=
  C3_resolution_totality.2.2 3 rampEnv 1 1 2 3
    (fun a b hab => by
      simp only [rampEnv]
      have h : (a : ℚ) ≤ (b : ℚ) := by exact_mod_cast hab
      linarith)
    (by norm_num [rampEnv]) (by norm_num) (by norm_num)

/-- C3 counterexample: in the `src/main.ts` variant the roll entries start
at `0` and a die unsettled at the deadline keeps `0`, which is not in
`{1..6}` — the claim's "fixed fallback face" does not hold there. -/
theorem C3_fallback_counterexample :
    (simulateThrowMain (3 : ℚ) timeoutEnv 1 5).1 = [0] ∧
    ¬(∀ v ∈ (simulateThrowMain (3 : ℚ) timeoutEnv 1 5).1, 1 ≤ v ∧ v ≤ 6) := by
  have h : (simulateThrowMain (3 : ℚ) timeoutEnv 1 5).1 = [0] := by
    norm_num [simulateThrowMain, runMainFuel, simStepMain, initSimState,
      processSleeps, stepSleep, posesAt, finishUp, timeoutEnv]
  refine ⟨h, fun hall => ?_⟩
  have := hall 0 (by rw [h]; exact List.mem_singleton.mpr rfl)
  omega

/-- A `src/main.ts` iteration reads the clock only through the question
"is the deadline passed?". -/
theorem simStepMain_elapsed_congr (pi : α) (w : ℕ → ℕ → BodyState α)
    (sl : ℕ → ℕ → Option (V3 α)) (e₁ e₂ : ℕ → α)
    (h : ∀ k, (1000 : α) < e₁ k ↔ (1000 : α) < e₂ k) (N : ℕ) (s : SimState α) :
    simStepMain pi ⟨w, sl, e₁⟩ N s = simStepMain pi ⟨w, sl, e₂⟩ N s := by
  simp only [simStepMain, posesAt]
  by_cases hg : N ≤ s.settled.count true
  · rw [if_pos hg, if_pos hg]
  · rw [if_neg hg, if_neg hg]
    by_cases hd : (1000 : α) < e₁ (s.i + 1)
    · rw [if_pos hd, if_pos ((h _).1 hd)]
    · rw [if_neg hd, if_neg fun hx => hd ((h _).2 hx)]

theorem runMainFuel_elapsed_congr (pi : α) (w : ℕ → ℕ → BodyState α)
    (sl : ℕ → ℕ → Option (V3 α)) (e₁ e₂ : ℕ → α)
    (h : ∀ k, (1000 : α) < e₁ k ↔ (1000 : α) < e₂ k) (N : ℕ) :
    ∀ (fuel : ℕ) (s : SimState α),
      runMainFuel pi ⟨w, sl, e₁⟩ N fuel s = runMainFuel pi ⟨w, sl, e₂⟩ N fuel s
  | 0, _ => rfl
  | fuel + 1, s => by
    simp only [runMainFuel]
    rw [← simStepMain_elapsed_congr pi w sl e₁ e₂ h N s]
    cases simStepMain pi ⟨w, sl, e₁⟩ N s with
    | halt s1 => rfl
    | next s1 => exact runMainFuel_elapsed_congr pi w sl e₁ e₂ h N fuel s1

/-- C8 (amended): with the integrator fixed (same per-step body states and
sleep events), the resolution result depends on the wall clock only through
the per-step answer to "is the deadline exceeded?" — two runs whose clocks
agree on that predicate produce identical face values and identical
trajectory records.  (The claim as stated is refuted by
`C8_determinism_counterexample`: clocks that disagree on the deadline give
different results even for the same seed and integrator, and the stuck
retry reseeds from `Math.random()`, outside the seeded stream.) -/
theorem C8_determinism_amended (pi : α) (w : ℕ → ℕ → BodyState α)
    (sl : ℕ → ℕ → Option (V3 α)) (e₁ e₂ : ℕ → α) (N fuel : ℕ)
    (h : ∀ k, (1000 : α) < e₁ k ↔ (1000 : α) < e₂ k) :
    simulateThrowMain pi ⟨w, sl, e₁⟩ N fuel =
      simulateThrowMain pi ⟨w, sl, e₂⟩ N fuel := by
  simp only [simulateThrowMain]
  rw [runMainFuel_elapsed_congr pi w sl e₁ e₂ h N fuel]
  rfl

/-- Witness for `C8_determinism_amended`: two clocks that never reach the
deadline (flat 0 ms and flat 500 ms) give identical runs. -/
theorem C8_determinism_amended_witness :
    simulateThrowMain (3 : ℚ) ⟨settleEnv.world, settleEnv.sleepAt, fun _ => 0⟩ 1 5 =
      simulateThrowMain (3 : ℚ) ⟨settleEnv.world, settleEnv.sleepAt, fun _ => 500⟩ 1 5 :=
  C8_determinism_amended 3 settleEnv.world settleEnv.sleepAt _ _ 1 5
    (fun _ => by norm_num)

/-- C8 counterexample: same "seed" (identical integrator states and sleep
events), but a slow machine whose clock crosses the deadline before the die
settles returns `[0]` with a 2-sample record, while the fast machine
returns `[1]` with a 3-sample record — the result is not a function of seed
and integrator alone. -/
theorem C8_determinism_counterexample :
    settleEnv.world = settleEnvSlow.world ∧
    settleEnv.sleepAt = settleEnvSlow.sleepAt ∧
    (simulateThrowMain (3 : ℚ) settleEnv 1 5).1 = [1] ∧
    (simulateThrowMain (3 : ℚ) settleEnvSlow 1 5).1 = [0] ∧
    simulateThrowMain (3 : ℚ) settleEnv 1 5 ≠
      simulateThrowMain (3 : ℚ) settleEnvSlow 1 5 := by
  have h1 : (simulateThrowMain (3 : ℚ) settleEnv 1 5).1 = [1] := by
    norm_num [simulateThrowMain, runMainFuel, simStepMain, initSimState,
      processSleeps, stepSleep, posesAt, finishUp, settleEnv, getFaceUp,
      v3zero, qone]
  have h2 : (simulateThrowMain (3 : ℚ) settleEnvSlow 1 5).1 = [0] := by
    norm_num [simulateThrowMain, runMainFuel, simStepMain, initSimState,
      processSleeps, stepSleep, posesAt, finishUp, settleEnvSlow, v3zero, qone]
  refine ⟨rfl, rfl, h1, h2, fun hEq => ?_⟩
  have h3 : (simulateThrowMain (3 : ℚ) settleEnv 1 5).1 =
      (simulateThrowMain (3 : ℚ) settleEnvSlow 1 5).1 := by rw [hEq]
  rw [h1, h2] at h3
  simp at h3

/-- The stuck scan is the conjunction, over **all** dice, of "moved at most
the threshold" and "linear speed at most the threshold". -/
theorem allStuck_iff (cfg : SimCfg α) (lp cp vels : List (V3 α)) :
    allStuck cfg lp cp vels = true ↔
      ∀ d, d < cp.length →
        v3dist cfg.ops.sqrt (cp.getD d v3zero) (lp.getD d v3zero) ≤ cfg.thr ∧
        v3len cfg.ops (vels.getD d v3zero) ≤ cfg.thr := by
  simp [allStuck, not_lt]

/-- Exact characterisation of the retry branch: guard passed, a detection
window boundary, not the first window, the stuck scan succeeded, and the
retry budget not yet exhausted. -/
theorem simStep_retry_iff (cfg : SimCfg α) (env : SimEnv α) (N rc : ℕ)
    (s : SimState α) :
    simStep cfg env N rc s = .retryNow ↔
      s.settled.count true < N ∧ (s.i + 1) % cfg.window = 0 ∧
      0 < s.lastPos.length ∧
      allStuck cfg s.lastPos (positionsAt env N (s.i + 1))
        (velocitiesAt env N (s.i + 1)) = true ∧ rc < cfg.cap := by
  simp only [simStep]
  split_ifs <;> simp_all [Nat.not_le]

/-- A retry signal can only be raised while below the retry cap. -/
theorem runLoop_retry_lt (cfg : SimCfg α) (env : SimEnv α) (N rc : ℕ) :
    ∀ (fuel : ℕ) (s : SimState α),
      runLoopFuel cfg env N rc fuel s = .retrySignal → rc < cfg.cap
  | 0, s, h => by simp [runLoopFuel] at h
  | fuel + 1, s, h => by
    simp only [runLoopFuel] at h
    cases hstep : simStep cfg env N rc s with
    | halt s1 => rw [hstep] at h; cases h
    | retryNow => exact ((simStep_retry_iff cfg env N rc s).1 hstep).2.2.2.2
    | next s1 =>
      rw [hstep] at h
      exact runLoop_retry_lt cfg env N rc fuel s1 h

/-- A concrete stuck run: with a window of 1 step, a die that neither moves
nor has velocity trips the stuck scan at the second window and the loop
raises the retry signal. -/
theorem rotEnv_retrySignal :
    runLoopFuel qStuckCfg rotEnv 1 0 5 (initSimState 1 1) = .retrySignal := by
  norm_num [runLoopFuel, simStep, initSimState, processSleeps, stepSleep,
    posesAt, positionsAt, velocitiesAt, allStuck, v3dist, v3len, qOps,
    qStuckCfg, rotEnv, v3zero]

/-- C5 counterexample: the loop judges the spinning-in-place die stuck (its
position and linear velocity are negligible), but the die has rotated by
far more than the threshold between the two windows, so the claim's "moved
**and rotated** by less than the threshold for every unsettled die"
characterisation is false — the code never samples rotation at all. -/
theorem C5_stuck_rotation_counterexample :
    runLoopFuel qStuckCfg rotEnv 1 0 5 (initSimState 1 1) = .retrySignal ∧
    ¬specStuck qStuckCfg false [false] [(rotEnv.world 1 0).pos]
      [(rotEnv.world 2 0).pos] [(rotEnv.world 1 0).quat] [(rotEnv.world 2 0).quat] := by
  refine ⟨rotEnv_retrySignal, fun hsp => ?_⟩
  have h := hsp.2 0 (by norm_num [rotEnv, v3zero]) rfl
  norm_num [q4dist, qOps, qStuckCfg, v3dist, v3zero, qone, rotEnv] at h

/-- C5 (amended): every detection window the positions and velocities of
**all** dice (settled or not) are sampled; the stuck scan succeeds iff every
die's position moved at most the threshold *and* its linear speed is at most
the threshold (rotation is never examined); the loop raises a retry exactly
when the guard still holds, the step count is a window boundary, this is
not the first window, the scan succeeded and the retry count is below the
cap; on a retry the in-progress trajectory is discarded and resolution
restarts against the next environment (fresh seed) with `retryCount + 1`;
and a retry can never be raised at or above the cap (with the budget
exhausted the loop just continues until the wall-clock deadline). -/
theorem C5_stuck_detection_amended :
    (∀ (cfg : SimCfg α) (lp cp vels : List (V3 α)),
      allStuck cfg lp cp vels = true ↔
        ∀ d, d < cp.length →
          v3dist cfg.ops.sqrt (cp.getD d v3zero) (lp.getD d v3zero) ≤ cfg.thr ∧
          v3len cfg.ops (vels.getD d v3zero) ≤ cfg.thr) ∧
    (∀ (cfg : SimCfg α) (env : SimEnv α) (N rc : ℕ) (s : SimState α),
      simStep cfg env N rc s = .retryNow ↔
        s.settled.count true < N ∧ (s.i + 1) % cfg.window = 0 ∧
        0 < s.lastPos.length ∧
        allStuck cfg s.lastPos (positionsAt env N (s.i + 1))
          (velocitiesAt env N (s.i + 1)) = true ∧ rc < cfg.cap) ∧
    (∀ (cfg : SimCfg α) (envs : ℕ → SimEnv α) (N fuel rfuel rc : ℕ),
      runLoopFuel cfg (envs rc) N rc fuel (initSimState 1 N) = .retrySignal →
      resolveFuel cfg envs N fuel (rfuel + 1) rc =
        resolveFuel cfg envs N fuel rfuel (rc + 1)) ∧
    (∀ (cfg : SimCfg α) (env : SimEnv α) (N rc fuel : ℕ) (s : SimState α),
      runLoopFuel cfg env N rc fuel s = .retrySignal → rc < cfg.cap) := by
  refine ⟨allStuck_iff, simStep_retry_iff, ?_, ?_⟩
  · intro cfg envs N fuel rfuel rc h
    simp [resolveFuel, h]
  · intro cfg env N rc fuel s h
    exact runLoop_retry_lt cfg env N rc fuel s h

/-- Witness for `C5_stuck_detection_amended`: the concrete stuck run makes
the resolver discard the attempt and restart with `retryCount = 1`. -/
theorem C5_stuck_detection_amended_witness :
    resolveFuel qStuckCfg (fun _ => rotEnv) 1 5 4 0 =
      resolveFuel qStuckCfg (fun _ => rotEnv) 1 5 3 1 :=
  C5_stuck_detection_amended.2.2.1 qStuckCfg (fun _ => rotEnv) 1 5 3 0
    rotEnv_retrySignal

/-- A candidate accepted by the rejection loop is at least `1.8` (in x)
from every already-placed die. -/
theorem attemptLoop_valid_sep (rng : ℕ → α) (placed : List (V3 α)) :
    ∀ (fuel k : ℕ) (p : V3 α) (k2 : ℕ),
      attemptLoopP1 rng placed fuel k = (p, k2, true) →
      ∀ q ∈ placed, (9 : α) / 5 ≤ |p.x - q.x|
  | 0, k, p, k2, h => by simp [attemptLoopP1] at h
  | fuel + 1, k, p, k2, h => by
    simp only [attemptLoopP1] at h
    split_ifs at h with hv hf
    · cases h
      intro q hq
      have := List.all_eq_true.mp hv q hq
      simpa using this
    · cases h
    · exact attemptLoop_valid_sep rng placed fuel (k + 2) p k2 h

theorem genGo_length (rng : ℕ → α) (numDice : ℕ) :
    ∀ (rem k : ℕ) (placed : List (V3 α)),
      (genGoP1 rng numDice rem k placed).length = placed.length + rem
  | 0, _, placed => by simp [genGoP1]
  | rem + 1, k, placed => by
    simp only [genGoP1]
    rw [genGo_length rng numDice rem _ _]
    simp
    omega

/-- Appending a position that is either the next fallback or separated
from everything placed preserves the per-die guarantee. -/
theorem placedInv_append (numDice : ℕ) (placed : List (V3 α)) (p : V3 α)
    (hinv : ∀ i, i < placed.length →
      placed.getD i v3zero = fallbackP1 numDice i ∨
      ∀ j, j < i → (9 : α) / 5 ≤ |(placed.getD i v3zero).x - (placed.getD j v3zero).x|)
    (hp : p = fallbackP1 numDice placed.length ∨
      ∀ q ∈ placed, (9 : α) / 5 ≤ |p.x - q.x|) :
    ∀ i, i < (placed ++ [p]).length →
      (placed ++ [p]).getD i v3zero = fallbackP1 numDice i ∨
      ∀ j, j < i →
        (9 : α) / 5 ≤ |((placed ++ [p]).getD i v3zero).x -
          ((placed ++ [p]).getD j v3zero).x| := by
  intro i hi
  rw [List.length_append, List.length_singleton] at hi
  rcases Nat.lt_or_ge i placed.length with hlt | hge
  · rcases hinv i hlt with hc | hc
    · left
      rw [List.getD_append _ _ _ _ hlt]
      exact hc
    · right
      intro j hj
      rw [List.getD_append _ _ _ _ hlt, List.getD_append _ _ _ _ (hj.trans hlt)]
      exact hc j hj
  · have hieq : i = placed.length := by omega
    subst hieq
    have hgetp : (placed ++ [p]).getD placed.length v3zero = p := by
      rw [List.getD_append_right _ _ _ _ le_rfl]
      simp
    rcases hp with hc | hc
    · left
      rw [hgetp]
      exact hc
    · right
      intro j hj
      rw [hgetp, List.getD_append _ _ _ _ hj]
      refine hc _ ?_
      rw [List.getD_eq_getElem placed v3zero hj]
      exact List.getElem_mem hj

/-- The per-die guarantee the placement loop actually maintains: each
placed position is either that index's deterministic fallback, or at least
`1.8` away (in x) from every earlier position. -/
theorem genGo_sep (rng : ℕ → α) (numDice : ℕ) :
    ∀ (rem k : ℕ) (placed : List (V3 α)),
      rem + placed.length = numDice →
      (∀ i, i < placed.length →
        placed.getD i v3zero = fallbackP1 numDice i ∨
        ∀ j, j < i → (9 : α) / 5 ≤ |(placed.getD i v3zero).x - (placed.getD j v3zero).x|) →
      ∀ i, i < (genGoP1 rng numDice rem k placed).length →
        (genGoP1 rng numDice rem k placed).getD i v3zero = fallbackP1 numDice i ∨
        ∀ j, j < i →
          (9 : α) / 5 ≤ |((genGoP1 rng numDice rem k placed).getD i v3zero).x -
            ((genGoP1 rng numDice rem k placed).getD j v3zero).x|
  | 0, _, placed, _, hinv => by
    simpa [genGoP1] using hinv
  | rem + 1, k, placed, hcount, hinv => by
    simp only [genGoP1]
    by_cases hv : (attemptLoopP1 rng placed 100 k).2.2 = true
    · rw [if_pos hv]
      refine genGo_sep rng numDice rem _ _ (by simp; omega)
        (placedInv_append numDice placed _ hinv (Or.inr ?_))
      refine attemptLoop_valid_sep rng placed 100 k
        (attemptLoopP1 rng placed 100 k).1 (attemptLoopP1 rng placed 100 k).2.1 ?_
      rw [← hv]
    · rw [if_neg hv]
      have hplen : numDice - (rem + 1) = placed.length := by omega
      rw [hplen]
      exact genGo_sep rng numDice rem _ _ (by simp; omega)
        (placedInv_append numDice placed _ hinv (Or.inl rfl))

/-- The fallback grid positions are pairwise at least `1.8` apart in x. -/
theorem fallbackP1_spacing (numDice i j : ℕ) (hne : i ≠ j) :
    (9 : α) / 5 ≤ |(fallbackP1 numDice i : V3 α).x - (fallbackP1 numDice j).x| := by
  simp only [fallbackP1]
  have hsub : ((i : α) - ((numDice : α) - 1) / 2) * (9 / 5) -
      ((j : α) - ((numDice : α) - 1) / 2) * (9 / 5) = ((i : α) - (j : α)) * (9 / 5) := by
    ring
  rw [hsub, abs_mul, abs_of_pos (by norm_num : (0 : α) < 9 / 5)]
  have h1 : (1 : α) ≤ |(i : α) - (j : α)| := by
    rcases Nat.lt_or_ge i j with hlt | hge
    · have : (i : α) + 1 ≤ (j : α) := by exact_mod_cast Nat.succ_le_of_lt hlt
      exact le_abs.mpr (Or.inr (by linarith))
    · have hlt : j < i := lt_of_le_of_ne hge (Ne.symm hne)
      have : (j : α) + 1 ≤ (i : α) := by exact_mod_cast Nat.succ_le_of_lt hlt
      exact le_abs.mpr (Or.inl (by linarith))
  nlinarith [h1]

/-- C9 (amended): for every rng stream and every die count the generator
returns exactly `N` positions; each position is either at least the minimum
distance (in x, the variant's metric) from every earlier one, or is its
index's deterministic grid-fallback position; and the fallback positions
themselves are pairwise at least the minimum distance apart (so an
all-fallback placement is pairwise separated).  Pairwise separation of the
*returned* positions is **not** guaranteed when sampled and fallback
positions mix — `C9_nonoverlap_counterexample` exhibits two coincident
positions for `N = 2`. -/
theorem C9_placement_amended (rng : ℕ → α) (numDice : ℕ) :
    (generateNonOverlappingPositionsP1 rng numDice).length = numDice ∧
    (∀ i, i < numDice →
      (generateNonOverlappingPositionsP1 rng numDice).getD i v3zero =
        fallbackP1 numDice i ∨
      ∀ j, j < i →
        (9 : α) / 5 ≤ |((generateNonOverlappingPositionsP1 rng numDice).getD i v3zero).x -
          ((generateNonOverlappingPositionsP1 rng numDice).getD j v3zero).x|) ∧
    (∀ i j, i ≠ j →
      (9 : α) / 5 ≤ |(fallbackP1 numDice i : V3 α).x - (fallbackP1 numDice j).x|) := by
  have hlen : (generateNonOverlappingPositionsP1 rng numDice).length = numDice := by
    simp [generateNonOverlappingPositionsP1, genGo_length rng numDice numDice 0 []]
  refine ⟨hlen, ?_, fun i j hne => fallbackP1_spacing numDice i j hne⟩
  intro i hi
  exact genGo_sep rng numDice numDice 0 [] (by simp) (by simp) i
    (by simpa [genGo_length rng numDice numDice 0 []] using hi)

/-- Witness for `C9_placement_amended` on the concrete clash stream. -/
theorem C9_placement_amended_witness :
    (generateNonOverlappingPositionsP1 clashRng 2).length = 2 ∧
    (9 : ℚ) / 5 ≤ |(fallbackP1 2 1 : V3 ℚ).x - (fallbackP1 2 0).x| :=
  ⟨(C9_placement_amended clashRng 2).1,
   (C9_placement_amended clashRng 2).2.2 1 0 (by norm_num)⟩

/-- The defining equation of one rejection attempt, for single-step
unfolding in concrete runs. -/
theorem attemptLoop_step (rng : ℕ → α) (placed : List (V3 α)) (fuel k : ℕ) :
    attemptLoopP1 rng placed (fuel + 1) k =
      (let x := (rng k - 1 / 2) * 2 * (min ((10 : α) - 2) 8 / 2)
       let y := 3 + rng (k + 1) * 1
       let p : V3 α := ⟨x, y, 0⟩
       let valid := placed.all fun q => decide ((9 : α) / 5 ≤ |p.x - q.x|)
       if valid then (p, k + 2, true)
       else if fuel = 0 then (p, k + 2, false)
       else attemptLoopP1 rng placed fuel (k + 2)) := rfl

/-- Every attempt of the clash stream's second die fails (it always draws
the arena centre, `0.9` away from the first die — closer than `1.8`), so
the rejection loop exhausts its budget. -/
theorem clash_attempt_fail :
    ∀ (fuel : ℕ) (k : ℕ), 2 ≤ k →
      attemptLoopP1 clashRng [⟨9 / 10, 3, 0⟩] (fuel + 1) k =
        (⟨0, 7 / 2, 0⟩, k + 2 * (fuel + 1), false) := by
  intro fuel
  induction fuel with
  | zero =>
    intro k hk
    have hk0 : clashRng k = 1 / 2 := by
      simp [clashRng, show k ≠ 0 by omega, show k ≠ 1 by omega]
    have hk1 : clashRng (k + 1) = 1 / 2 := by
      simp [clashRng, show k + 1 ≠ 0 by omega, show k + 1 ≠ 1 by omega]
    have habs : |(9 / 10 : ℚ)| = 9 / 10 := by
      rw [abs_of_pos]
      norm_num
    rw [attemptLoop_step]
    norm_num [hk0, hk1, habs]
  | succ f ih =>
    intro k hk
    have hk0 : clashRng k = 1 / 2 := by
      simp [clashRng, show k ≠ 0 by omega, show k ≠ 1 by omega]
    have hk1 : clashRng (k + 1) = 1 / 2 := by
      simp [clashRng, show k + 1 ≠ 0 by omega, show k + 1 ≠ 1 by omega]
    have habs : |(9 / 10 : ℚ)| = 9 / 10 := by
      rw [abs_of_pos]
      norm_num
    have hrec := ih (k + 2) (by omega)
    rw [attemptLoop_step]
    norm_num [hk0, hk1, habs, hrec]
    omega

/-- The concrete run of the generator on the clash stream: the first die
lands exactly on die 1's future fallback spot and the second die falls back
onto it. -/
theorem clash_gen :
    generateNonOverlappingPositionsP1 clashRng 2 =
      [⟨9 / 10, 3, 0⟩, ⟨9 / 10, 3, 0⟩] := by
  have hfail := clash_attempt_fail 99 2 (by norm_num)
  norm_num at hfail
  have hfirst : attemptLoopP1 clashRng [] 100 0 = (⟨9 / 10, 3, 0⟩, 2, true) := by
    rw [show (100 : ℕ) = 99 + 1 from rfl, attemptLoop_step]
    norm_num [clashRng]
  norm_num [generateNonOverlappingPositionsP1, genGoP1, hfirst, hfail, fallbackP1]

/-- C9 counterexample: for `N = 2` (well within the arena's capacity under
the 1.8-separation rule) there is an rng stream for which the two returned
start positions coincide — neither pairwise minimum separation nor
distinctness holds once a sampled position and a fallback position mix. -/
theorem C9_nonoverlap_counterexample :
    (generateNonOverlappingPositionsP1 clashRng 2).getD 0 v3zero =
      (generateNonOverlappingPositionsP1 clashRng 2).getD 1 v3zero ∧
    ¬((9 : ℚ) / 5 ≤ |((generateNonOverlappingPositionsP1 clashRng 2).getD 1 v3zero).x -
        ((generateNonOverlappingPositionsP1 clashRng 2).getD 0 v3zero).x|) := by
  rw [clash_gen]
  norm_num

end DiceRoll
